import Mathlib

/-!
Verification of the CDW_MedCP repository (a read-only clinical-data-warehouse
MCP server) against its natural-language specification.

The Python sources are shallowly embedded: strings become `String`/`List Char`,
regular-expression scans become structural scanners over character lists,
the database, the filesystem and the spreadsheet reader become explicit
oracles or row lists, and exceptions become `Except`.  Python `str.upper`,
`str.lower`, `str.isalnum`, `\w`, `\s` and `\b` are modelled on the ASCII
range (the repository only ever feeds them SQL text and identifiers).
Numeric percentages are modelled over `ℚ`, with Python `round` modelled as
round-half-to-even.
-/

namespace CDW

/- ===== Character-level helpers (models of Python `str`/`re` semantics) ===== -/

/-- Python whitespace for `str.strip` and the regex class `\s` (ASCII part). -/
def pyIsSpace (c : Char) : Bool :=
  c == ' ' || c == '\t' || c == '\n' || c == '\r' || c == '\x0b' || c == '\x0c'

/-- The regex word-character class `\w` (ASCII part): letters, digits, underscore. -/
def isWordChar (c : Char) : Bool :=
  c.isAlpha || c.isDigit || c == '_'

/-- The lowercase/uppercase ASCII letter pairs used to model `str.upper`. -/
def upperPairs : List (Char × Char) :=
  [('a', 'A'), ('b', 'B'), ('c', 'C'), ('d', 'D'), ('e', 'E'), ('f', 'F'),
   ('g', 'G'), ('h', 'H'), ('i', 'I'), ('j', 'J'), ('k', 'K'), ('l', 'L'),
   ('m', 'M'), ('n', 'N'), ('o', 'O'), ('p', 'P'), ('q', 'Q'), ('r', 'R'),
   ('s', 'S'), ('t', 'T'), ('u', 'U'), ('v', 'V'), ('w', 'W'), ('x', 'X'),
   ('y', 'Y'), ('z', 'Z')]

/-- Model of Python `str.upper` on one character (ASCII range). -/
def pyUpperChar (c : Char) : Char :=
  match upperPairs.find? (fun p => p.1 == c) with
  | some p => p.2
  | none => c

/-- Model of Python `str.lower` on one character (ASCII range). -/
def pyLowerChar (c : Char) : Char :=
  match upperPairs.find? (fun p => p.2 == c) with
  | some p => p.1
  | none => c

theorem upperPairs_facts : ∀ p ∈ upperPairs,
    isWordChar p.1 = true ∧ isWordChar p.2 = true ∧
    pyIsSpace p.1 = false ∧ pyIsSpace p.2 = false ∧
    p.1 ≠ ';' ∧ p.2 ≠ ';' := by decide

theorem isWordChar_pyUpperChar (c : Char) : isWordChar (pyUpperChar c) = isWordChar c := by
  unfold pyUpperChar
  cases h : upperPairs.find? (fun p => p.1 == c) with
  | none => rfl
  | some p =>
    have hm := List.mem_of_find?_eq_some h
    have hp := List.find?_some h
    have hc : p.1 = c := by simpa using hp
    obtain ⟨h1, h2, -⟩ := upperPairs_facts p hm
    rw [← hc, h1, h2]

theorem pyIsSpace_pyUpperChar (c : Char) : pyIsSpace (pyUpperChar c) = pyIsSpace c := by
  unfold pyUpperChar
  cases h : upperPairs.find? (fun p => p.1 == c) with
  | none => rfl
  | some p =>
    have hm := List.mem_of_find?_eq_some h
    have hp := List.find?_some h
    have hc : p.1 = c := by simpa using hp
    obtain ⟨-, -, h3, h4, -⟩ := upperPairs_facts p hm
    rw [← hc, h3, h4]

theorem pyUpperChar_eq_semi (c : Char) : (pyUpperChar c == ';') = (c == ';') := by
  unfold pyUpperChar
  cases h : upperPairs.find? (fun p => p.1 == c) with
  | none => rfl
  | some p =>
    have hm := List.mem_of_find?_eq_some h
    have hp := List.find?_some h
    have hc : p.1 = c := by simpa using hp
    obtain ⟨-, -, -, -, h5, h6⟩ := upperPairs_facts p hm
    rw [← hc]
    simp [h5, h6]

theorem isWordChar_of_pyIsSpace {c : Char} (h : pyIsSpace c = true) : isWordChar c = false := by
  unfold pyIsSpace at h
  simp only [Bool.or_eq_true, beq_iff_eq] at h
  rcases h with ((((h | h) | h) | h) | h) | h <;> subst h <;> decide

/- ===== src/cdw_medcp/validation.py ===== -/

/-- Model of `re.sub(r'--[^\n]*', '', query)` : the Boolean state records
whether the scanner is inside a single-line comment (text from a `--`
marker up to, but not including, the next newline). -/
def stripCommentsAux : Bool → List Char → List Char
  | _, [] => []
  | true, c :: cs =>
    if c = '\n' then c :: stripCommentsAux false cs else stripCommentsAux true cs
  | false, [c] => [c]
  | false, c :: d :: ds =>
    if c = '-' ∧ d = '-' then stripCommentsAux true ds
    else c :: stripCommentsAux false (d :: ds)

/-- `ClinicalQueryValidator._strip_comments`. -/
def stripComments (l : List Char) : List Char := stripCommentsAux false l

/-- Python `str.strip()`: drop whitespace from both ends. -/
def pyStrip (l : List Char) : List Char :=
  ((l.dropWhile pyIsSpace).reverse.dropWhile pyIsSpace).reverse

/-- The blocked keywords of `_is_write_query` (validation.py). -/
def writeKeywords : List String :=
  ["MERGE", "CREATE", "SET", "DELETE", "REMOVE", "ADD", "INSERT", "UPDATE",
   "DROP", "ALTER", "TRUNCATE", "GRANT", "REVOKE", "EXEC", "EXECUTE", "SP_"]

/-- One keyword matches at the head of `l`, case-insensitively, with a word
boundary after it (the boundary before it is handled by the scanner). -/
def kwMatchAt (kw : List Char) (l : List Char) : Bool :=
  ((l.take kw.length).map pyUpperChar == kw) &&
    (match l.drop kw.length with
     | [] => true
     | d :: _ => !isWordChar d)

/-- Scan for `\bKEYWORD\b` occurrences; `prev` records whether the previous
character was a word character (so that `\b` holds exactly when `prev` is
false, every keyword starting with a word character). -/
def scanKw (prev : Bool) : List Char → Bool
  | [] => false
  | c :: cs =>
    (!prev && writeKeywords.any (fun kw => kwMatchAt kw.data (c :: cs))) ||
      scanKw (isWordChar c) cs

/-- `_is_write_query` (validation.py): whole-word, case-insensitive search
for any blocked keyword. -/
def isWriteQuery (l : List Char) : Bool := scanKw false l

/-- After a semicolon: skip optional whitespace, then a word character. -/
def semiAfterWord (cs : List Char) : Bool :=
  match cs.dropWhile pyIsSpace with
  | [] => false
  | d :: _ => isWordChar d

/-- Model of `re.search(r';\s*\w+', _)`: some semicolon is followed by
optional whitespace and a word character. -/
def hasSemiChain : List Char → Bool
  | [] => false
  | c :: cs => ((c == ';') && semiAfterWord cs) || hasSemiChain cs

/-- The allowed opening statements of `is_read_only_clinical_query`. -/
def allowedStatements : List String := ["SELECT", "WITH", "DECLARE"]

/-- One of the allowed statements is a prefix of the cleaned query. -/
def startsAllowed (clean : List Char) : Bool :=
  allowedStatements.any (fun stmt => stmt.data.isPrefixOf clean)

/-- `ClinicalQueryValidator.is_read_only_clinical_query` (validation.py):
strip comments, trim + uppercase, check allowed opening statement, then the
write-keyword search on the comment-stripped text, then the
semicolon-chaining search on the cleaned text. -/
def is_read_only_clinical_query (q : String) : Bool :=
  startsAllowed ((pyStrip (stripComments q.data)).map pyUpperChar) &&
    !(isWriteQuery (stripComments q.data)) &&
    !(hasSemiChain ((pyStrip (stripComments q.data)).map pyUpperChar))

/-- The validator as claim C1 words it: after removing `--` comments, the
trimmed text must begin case-insensitively with an allowed statement,
contain no blocked keyword as a whole word (case-insensitive), and contain
no semicolon followed by optional whitespace and a word character. -/
def specReadOnlyQuery (q : String) : Bool :=
  startsAllowed ((pyStrip (stripComments q.data)).map pyUpperChar) &&
    !(isWriteQuery (pyStrip (stripComments q.data))) &&
    !(hasSemiChain (pyStrip (stripComments q.data)))

/- ===== src/cdw_medcp/server.py : namespace formatting ===== -/

/-- Python `namespace.endswith("-")`. -/
def strEndsWithDash (s : String) : Bool := s.data.getLast? == some '-'

/-- `_format_namespace` (server.py): append a trailing dash to a non-empty
prefix unless already present; the empty prefix yields the empty string. -/
def formatNamespace (s : String) : String :=
  if s = "" then "" else if strEndsWithDash s then s else s ++ "-"

/- ===== src/cdw_medcp/config.py ===== -/

structure ClinicalDBConfig where
  server : String
  database : String
  username : String
  password : String
deriving DecidableEq

structure CDWConfig where
  clinical_db : ClinicalDBConfig
  nspace : String
  db_schema : String
  log_level : String
deriving DecidableEq

/- ===== src/cdw_medcp/server.py : create_cdw_server registration calls ===== -/

/-- An argument passed positionally to one register_*_tools call. -/
inductive RegArg : Type where
  | mcp : RegArg
  | ns : RegArg
  | db : ClinicalDBConfig → RegArg
  | schemaQ : String → RegArg
deriving DecidableEq

/-- The register_*_tools calls made by `create_cdw_server` (server.py lines
37-43), in order: function name, number of parameters without defaults,
total number of parameters (from each tool module's definition), and the
positional arguments supplied at the call site. -/
def serverCalls (config : CDWConfig) : List (String × Nat × Nat × List RegArg) :=
  [("register_schema_tools", 2, 2, [.mcp, .ns]),
   ("register_query_tools", 3, 4,
     [.mcp, .ns, .db config.clinical_db, .schemaQ config.db_schema]),
   ("register_notes_tools", 3, 3,
     [.mcp, .ns, .db config.clinical_db, .schemaQ config.db_schema]),
   ("register_export_tools", 3, 3, [.mcp, .ns, .db config.clinical_db]),
   ("register_concept_tools", 3, 3,
     [.mcp, .ns, .db config.clinical_db, .schemaQ config.db_schema]),
   ("register_stats_tools", 3, 4,
     [.mcp, .ns, .db config.clinical_db, .schemaQ config.db_schema])]

/-- Run the registration calls in order; a call whose positional argument
count is not accepted by the function signature raises TypeError, exactly
as the Python interpreter would. -/
def runRegistrations : List (String × Nat × Nat × List RegArg) →
    Except String (List (String × List RegArg))
  | [] => .ok []
  | (f, req, tot, args) :: rest =>
    if req ≤ args.length ∧ args.length ≤ tot then
      match runRegistrations rest with
      | .ok done => .ok ((f, args) :: done)
      | .error e => .error e
    else
      .error ("TypeError: " ++ f ++ "() takes " ++ toString tot ++
        " positional arguments but " ++ toString args.length ++ " were given")

/-- `create_cdw_server` (server.py): register every tool module. -/
def create_cdw_server (config : CDWConfig) : Except String (List (String × List RegArg)) :=
  runRegistrations (serverCalls config)

/- ===== src/cdw_medcp/tools/stats.py : summarize_table ===== -/

/-- ASCII part of Python `str.isalnum` on one character. -/
def isAsciiAlnum (c : Char) : Bool := c.isAlpha || c.isDigit

/-- Python `str.isalnum`: non-empty and every character alphanumeric. -/
def pyIsAlnumStr (l : List Char) : Bool := !l.isEmpty && l.all isAsciiAlnum

/-- The stats-tool table-name gate:
`table_name.replace("_", "").replace(".", "").isalnum()`. -/
def validTableName (t : String) : Bool :=
  pyIsAlnumStr (t.data.filter (fun c => !(c == '_') && !(c == '.')))

/-- Floor of a rational, computed from its normalised fraction. -/
def floorQ (q : ℚ) : ℤ := Int.fdiv q.num q.den

/-- Round a rational to the nearest integer, ties to even
(the behaviour of Python `round`). -/
def roundHalfEven (q : ℚ) : ℤ :=
  if (q - (floorQ q : ℚ)) < 1/2 then floorQ q
  else if (q - (floorQ q : ℚ)) = 1/2 then
    (if floorQ q % 2 = 0 then floorQ q else floorQ q + 1)
  else floorQ q + 1

/-- Python `round(x, 1)`, modelled over `ℚ`. -/
def pyRound1 (q : ℚ) : ℚ := (roundHalfEven (q * 10) : ℚ) / 10

/-- The per-column null percentage of `summarize_table`:
`round(null_count / row_count * 100, 1) if row_count > 0 else 0`. -/
def null_pct (nullCount rowCount : Nat) : ℚ :=
  if rowCount > 0 then pyRound1 ((nullCount : ℚ) / (rowCount : ℚ) * 100) else 0

structure ColumnStat where
  name : String
  data_type : String
  null_count : Nat
  null_pct : ℚ
deriving DecidableEq

structure TableSummary where
  table_name : String
  row_count : Nat
  columns : List ColumnStat
deriving DecidableEq

/-- Oracle for the database round-trips of `summarize_table`: the COUNT(*)
result, the INFORMATION_SCHEMA column list (name, data type) in ordinal
order, and the per-column null count. -/
structure StatsDB where
  rowCount : Nat
  tableColumns : List (String × String)
  nullCount : String → Nat

/-- `summarize_table` (stats.py): reject invalid table names before any
connection is opened; otherwise open a connection (first component `true`),
compute the row count, and for the first 50 columns the null count and
null percentage. -/
def summarize_table (db : StatsDB) (schema tableName : String) :
    Bool × Except String TableSummary :=
  if !validTableName tableName then (false, .error "Invalid table name")
  else (true, .ok
    { table_name := schema ++ "." ++ tableName,
      row_count := db.rowCount,
      columns := (db.tableColumns.take 50).map (fun nc =>
        { name := nc.1, data_type := nc.2, null_count := db.nullCount nc.1,
          null_pct := null_pct (db.nullCount nc.1) db.rowCount }) })

/- ===== src/cdw_medcp/tools/schema.py : describe_table ===== -/

/-- Python `str.lower` (ASCII range), applied to a whole string. -/
def lowerStr (s : String) : String := ⟨s.data.map pyLowerChar⟩

/-- Python dict lookup, the schema reference being a JSON object with
unique keys (modelled as an association list). -/
def lookupDict {α : Type} (schema : List (String × α)) (k : String) : Option α :=
  (schema.find? (fun kv => kv.1 == k)).map Prod.snd

/-- `describe_table` (schema.py): exact lookup first; otherwise the first
case-insensitive match (Python takes `matches[0]` and re-reads
`schema[matches[0]]`, which with unique dict keys is that entry's value);
otherwise a "not found" error naming the table and pointing at
get_database_overview.  The result is the resolved table name together with
its schema-reference entry. -/
def describe_table {α : Type} (schema : List (String × α)) (name : String) :
    Except String (String × α) :=
  match lookupDict schema name with
  | some info => .ok (name, info)
  | none =>
    match schema.find? (fun kv => lowerStr kv.1 == lowerStr name) with
    | some kv => .ok (kv.1, kv.2)
    | none => .error ("Table " ++ name ++
        " not found. Use get_database_overview to see available tables.")

/- ===== src/cdw_medcp/tools/queries.py ===== -/

def DEFAULT_ROW_LIMIT : Nat := 1000

/-- What the pyodbc/pymssql cursor yields for an executed statement: the
column names of the result descriptor (empty when the statement produced no
column-bearing result) and the full row set, each cell possibly NULL. -/
structure Cursor where
  description : List String
  rows : List (List (Option String))

/-- CSV cell rendering of `_execute_readonly_query`:
`str(v) if v is not None else ""` (cells modelled as strings). -/
def renderCell (v : Option String) : String := v.getD ""

/-- One comma-joined CSV line. -/
def csvLine (cells : List String) : String := String.intercalate "," cells

/-- The CSV text of `_execute_readonly_query`: a header line followed by one
line per fetched row. -/
def csvText (columns : List String) (rows : List (List (Option String))) : String :=
  String.intercalate "\n" (csvLine columns :: rows.map (fun r => csvLine (r.map renderCell)))

/-- The rows that `_execute_readonly_query` fetches from the cursor:
`cursor.fetchmany(row_limit)`. -/
def fetchedRows (rowLimit : Nat) (cur : Cursor) : List (List (Option String)) :=
  cur.rows.take rowLimit

/-- `_execute_readonly_query` (queries.py): validate, execute, read the
column names, fetch at most `row_limit` rows, and format as CSV (or the
fixed sentinel when there were no columns). -/
def execute_readonly_query (sql : String) (rowLimit : Nat) (cur : Cursor) :
    Except String String :=
  if ¬ is_read_only_clinical_query sql then
    .error "Only SELECT queries are allowed. Write operations are blocked for security."
  else if cur.description = [] then
    .ok "Query executed successfully (no results returned)"
  else
    .ok (csvText cur.description (fetchedRows rowLimit cur))

/-- The statement the free-form `query` tool executes: the caller's SQL,
passed through unchanged, whatever the row limit (queries.py line 100:
`_execute_readonly_query(clinical_config, sql_query, row_limit)`). -/
def query_executed_sql (sqlQuery : String) (_rowLimit : Nat) : String := sqlQuery

/-- The free-form `query` tool. -/
def query_tool (sqlQuery : String) (rowLimit : Nat) (cur : Cursor) : Except String String :=
  execute_readonly_query (query_executed_sql sqlQuery rowLimit) rowLimit cur

/-- The statement built by `get_patient_demographics`: `SELECT TOP 1 ...`,
executed with the DEFAULT row limit (`_execute_readonly_query(clinical_config, sql)`). -/
def get_patient_demographics_sql (schema patientId : String) : String :=
  "SELECT TOP 1 * FROM " ++ schema ++ ".PatientDim WHERE (PatientDurableKey = \x27" ++
    patientId ++ "\x27 OR PatientKey = \x27" ++ patientId ++
    "\x27) ORDER BY CASE WHEN IsCurrent = 1 THEN 0 ELSE 1 END, StartDate DESC"

def get_patient_demographics_tool (schema patientId : String) (cur : Cursor) :
    Except String String :=
  execute_readonly_query (get_patient_demographics_sql schema patientId) DEFAULT_ROW_LIMIT cur

/-- The statement built by the four canned per-patient fact lookups
(get_encounters, get_medications, get_diagnoses, get_labs):
`SELECT TOP {row_limit} * FROM {schema}.{factTable} WHERE PatientDurableKey =
'{patient_id}' OR PatientKey = '{patient_id}' ORDER BY {dateKey} DESC`. -/
def canned_lookup_sql (factTable dateKey schema patientId : String) (rowLimit : Nat) : String :=
  "SELECT TOP " ++ toString rowLimit ++ " * FROM " ++ schema ++ "." ++ factTable ++
    " WHERE PatientDurableKey = \x27" ++ patientId ++ "\x27 OR PatientKey = \x27" ++
    patientId ++ "\x27 ORDER BY " ++ dateKey ++ " DESC"

/-- A canned per-patient lookup tool: build the TOP-limited statement and run
it through `_execute_readonly_query` with the same `row_limit`. -/
def canned_lookup_tool (factTable dateKey schema patientId : String) (rowLimit : Nat)
    (cur : Cursor) : Except String String :=
  execute_readonly_query (canned_lookup_sql factTable dateKey schema patientId rowLimit)
    rowLimit cur

/-- Substring search (used to state that a statement contains no TOP clause). -/
def listHasSub (pat : List Char) : List Char → Bool
  | [] => pat.isEmpty
  | c :: cs => pat.isPrefixOf (c :: cs) || listHasSub pat cs

def strHasSub (pat s : String) : Bool := listHasSub pat.data s.data

/- ===== src/cdw_medcp/tools/stats.py : cohort_summary ===== -/

/-- Oracle for the database round-trips of `cohort_summary`: scalar COUNT
queries and GROUP BY breakdown queries, each possibly raising. -/
structure CohortDB where
  count : String → Except String Int
  groups : String → Except String (List (String × Int))

/-- The count statement of `cohort_summary`:
`SELECT COUNT(DISTINCT {col}) FROM ({patient_key_query}) sub`. -/
def cohort_count_sql (col subq : String) : String :=
  "SELECT COUNT(DISTINCT " ++ col ++ ") FROM (" ++ subq ++ ") sub"

/-- A demographic breakdown statement of `cohort_summary` (the three
f-strings for Sex, FirstRace and Ethnicity share this shape, with the
detected identifier column as the join filter):
`SELECT {cat}, COUNT(*) AS n FROM {schema}.PatientDim WHERE IsCurrent = 1
AND {joinCol} IN ({patient_key_query}) GROUP BY {cat} ORDER BY n DESC`. -/
def cohort_breakdown_sql (schema cat joinCol subq : String) : String :=
  "SELECT " ++ cat ++ ", COUNT(*) AS n FROM " ++ schema ++
    ".PatientDim WHERE IsCurrent = 1 AND " ++ joinCol ++ " IN (" ++ subq ++
    ") GROUP BY " ++ cat ++ " ORDER BY n DESC"

structure CohortResult where
  id_column : String
  patient_count : Int
  sex : Option (List (String × Int))
  race : Option (List (String × Int))
  ethnicity : Option (List (String × Int))
deriving DecidableEq

/-- The tail of `cohort_summary` after the identifier column has been
detected: build the result, adding the three breakdowns when demographics
were requested and the count is positive (an exception in any breakdown
query propagates). -/
def cohortProceed (db : CohortDB) (schema subq : String) (demographics : Bool)
    (idcol : String) (c : Int) : Except String CohortResult :=
  if demographics = true ∧ c > 0 then
    match db.groups (cohort_breakdown_sql schema "Sex" idcol subq) with
    | .error e => .error e
    | .ok sexB =>
      match db.groups (cohort_breakdown_sql schema "FirstRace" idcol subq) with
      | .error e => .error e
      | .ok raceB =>
        match db.groups (cohort_breakdown_sql schema "Ethnicity" idcol subq) with
        | .error e => .error e
        | .ok ethB => .ok ⟨idcol, c, some sexB, some raceB, some ethB⟩
  else .ok ⟨idcol, c, none, none, none⟩

/-- `cohort_summary` (stats.py): validate the subquery, then count distinct
identifiers assuming PatientDurableKey; only if that statement raises,
retry assuming PatientKey (the first error is swallowed); the detected
column is reported as `id_column` and used in the breakdown filters. -/
def cohort_summary (db : CohortDB) (schema subq : String) (demographics : Bool) :
    Except String CohortResult :=
  if ¬ is_read_only_clinical_query subq then
    .error "Invalid patient_key_query - only read-only SELECT queries are allowed."
  else
    match db.count (cohort_count_sql "PatientDurableKey" subq) with
    | .ok c => cohortProceed db schema subq demographics "PatientDurableKey" c
    | .error _ =>
      match db.count (cohort_count_sql "PatientKey" subq) with
      | .ok c => cohortProceed db schema subq demographics "PatientKey" c
      | .error e => .error e

/- ===== src/cdw_medcp/tools/export.py ===== -/

/-- The successive `cursor.fetchmany(n)` batches of a row set. -/
def chunks {α : Type} (n : Nat) : List α → List (List α)
  | [] => []
  | x :: xs => (x :: xs.take (n - 1)) :: chunks n (xs.drop (n - 1))
termination_by l => l.length
decreasing_by simp [List.length_drop]; omega

/-- Observable outcome of one `export_query_to_csv` call: whether a database
connection was opened and closed, the file contents written (header row and
data rows), and the returned message or raised error. -/
structure ExportOutcome where
  connOpened : Bool
  connClosed : Bool
  fileWritten : Option (List String × List (List (Option String)))
  result : Except String String

/-- `export_query_to_csv` (export.py): validate the SQL, then check the
destination's parent directory, both before opening a connection; execute,
and either report "no results" without writing a file, or write the header
row and all result rows, fetching in batches of 5000 and counting the rows
written per batch; the connection is closed on every exit path that opened
it (the `try/finally`). -/
def export_query_to_csv (sql filepath parentDir : String) (parentExists : Bool)
    (cur : Cursor) : ExportOutcome :=
  if ¬ is_read_only_clinical_query sql then
    ⟨false, false, none, .error "Only SELECT queries are allowed for export."⟩
  else if ¬ parentExists then
    ⟨false, false, none, .error ("Directory does not exist: " ++ parentDir)⟩
  else if cur.description = [] then
    ⟨true, true, none, .ok "Query returned no results. No file created."⟩
  else
    ⟨true, true, some (cur.description, (chunks 5000 cur.rows).flatten),
      .ok ("Exported " ++ toString (((chunks 5000 cur.rows).map List.length).sum) ++
        " rows to " ++ filepath)⟩

/- ===== scripts/parse_data_dictionary.py ===== -/

/-- Python truthiness of a spreadsheet cell (None and the empty string are
falsy); cells are modelled as `Option String` (None = empty cell), the
sheet headers being assumed present as named. -/
def truthy : Option String → Bool
  | none => false
  | some s => s != ""

/-- One parsed row of the Tables sheet (the fields `record.get(...)` reads). -/
structure TablesRow where
  table_name : Option String
  table_description : Option String
  has_pat_specific_data : Option String
  has_PHI : Option String
  has_enc_specific_data : Option String
  patientKey_Col : Option String
  encounterKey_Col : Option String
deriving DecidableEq

/-- One parsed row of the Columns sheet. -/
structure ColumnsRow where
  table_name : Option String
  column_name : Option String
  column_description : Option String
  data_type : Option String
  ordinal_position : Option String
  lookupTableName : Option String
  lookupType : Option String
deriving DecidableEq

/-- One output column record (`col_info`); the lookup keys are present in
the JSON object only when `lookupTableName` is truthy, hence the outer
`Option` on `lookup_table`/`lookup_type`. -/
structure ColEntry where
  name : Option String
  description : Option String
  data_type : Option String
  ordinal_position : Option String
  lookup_table : Option String
  lookup_type : Option (Option String)
deriving DecidableEq

def colInfo (r : ColumnsRow) : ColEntry :=
  { name := r.column_name, description := r.column_description,
    data_type := r.data_type, ordinal_position := r.ordinal_position,
    lookup_table := if truthy r.lookupTableName then r.lookupTableName else none,
    lookup_type := if truthy r.lookupTableName then some r.lookupType else none }

/-- One output table entry of the schema reference.  A JSON key that the
converter may omit is wrapped in one more `Option` layer:
`has_encounter_data` and the two key-column fields are present for a
Tables-sheet entry but entirely absent from the Columns-only default
`{"description": "", "has_patient_data": False, "has_phi": False}`. -/
structure TableEntry where
  description : Option String
  has_patient_data : Bool
  has_phi : Bool
  has_encounter_data : Option Bool
  patient_key_column : Option (Option String)
  encounter_key_column : Option (Option String)
  columns : List ColEntry
deriving DecidableEq

/-- The truthy table names of a sheet, in row order. -/
def namesOf {α : Type} (f : α → Option String) (rows : List α) : List String :=
  rows.filterMap (fun r => if truthy (f r) then f r else none)

def tablesNames (rows : List TablesRow) : List String :=
  namesOf TablesRow.table_name rows

def columnsNames (rows : List ColumnsRow) : List String :=
  namesOf ColumnsRow.table_name rows

/-- The Tables-sheet record for a table name: later rows overwrite earlier
ones in the Python dict, hence the last matching row. -/
def tablesEntryFor (rows : List TablesRow) (t : String) : Option TablesRow :=
  (rows.filter (fun r => r.table_name == some t)).getLast?

/-- The ordered column list collected for a table name. -/
def columnsFor (rows : List ColumnsRow) (t : String) : List ColEntry :=
  (rows.filter (fun r => r.table_name == some t)).map colInfo

/-- A Tables-sheet entry: description cell, the three yes/no markers
(true exactly when the cell is the literal "Y"), and the key columns. -/
def mkTablesAttrs (r : TablesRow) (cols : List ColEntry) : TableEntry :=
  { description := r.table_description,
    has_patient_data := r.has_pat_specific_data == some "Y",
    has_phi := r.has_PHI == some "Y",
    has_encounter_data := some (r.has_enc_specific_data == some "Y"),
    patient_key_column := some r.patientKey_Col,
    encounter_key_column := some r.encounterKey_Col,
    columns := cols }

/-- The Columns-only default entry
`{"description": "", "has_patient_data": False, "has_phi": False}`
plus the column list. -/
def defaultEntry (cols : List ColEntry) : TableEntry :=
  { description := some "", has_patient_data := false, has_phi := false,
    has_encounter_data := none, patient_key_column := none,
    encounter_key_column := none, columns := cols }

/-- Lexicographic code-point comparison of character lists (the order Python
`sorted` uses on strings). -/
def charListLe : List Char → List Char → Bool
  | [], _ => true
  | _ :: _, [] => false
  | a :: as, b :: bs =>
    if a.toNat < b.toNat then true
    else if b.toNat < a.toNat then false
    else charListLe as bs

/-- String comparison for Python `sorted`. -/
def strLeB (a b : String) : Bool := charListLe a.data b.data

/-- Insertion sort over strings, modelling Python `sorted`. -/
def insertStr (a : String) : List String → List String
  | [] => [a]
  | b :: bs => if strLeB a b then a :: b :: bs else b :: insertStr a bs

def sortStrs : List String → List String
  | [] => []
  | a :: as => insertStr a (sortStrs as)

/-- `parse_data_dictionary` (scripts/parse_data_dictionary.py): the output
object maps `sorted(set(tables) | set(columns_by_table))` to merged entries,
each table taking its Tables-sheet attributes (or the default when absent)
plus its column list. -/
def parse_data_dictionary (trows : List TablesRow) (crows : List ColumnsRow) :
    List (String × TableEntry) :=
  (sortStrs ((tablesNames trows ++ columnsNames crows).dedup)).map (fun t =>
    (t, match tablesEntryFor trows t with
        | some r => mkTablesAttrs r (columnsFor crows t)
        | none => defaultEntry (columnsFor crows t)))

/- ===== C1: the validator agrees with its specification ===== -/

theorem anyCongr {α : Type} {f g : α → Bool} (l : List α) (h : ∀ x ∈ l, f x = g x) :
    l.any f = l.any g := by
  induction l with
  | nil => rfl
  | cons a t ih =>
    simp only [List.any_cons]
    rw [h a (by simp), ih (fun x hx => h x (by simp [hx]))]

theorem writeKeywords_shape : ∀ kw ∈ writeKeywords,
    kw.data ≠ [] ∧ (∀ c ∈ kw.data, isWordChar c = true) := by decide

theorem kwMatchAt_not_word {kw : String} (hkw : kw ∈ writeKeywords) (c : Char)
    (rest : List Char) (hc : isWordChar c = false) :
    kwMatchAt kw.data (c :: rest) = false := by
  obtain ⟨hne, hall⟩ := writeKeywords_shape kw hkw
  apply Bool.eq_false_iff.mpr
  intro h
  unfold kwMatchAt at h
  rw [Bool.and_eq_true] at h
  obtain ⟨h1, -⟩ := h
  cases hd : kw.data with
  | nil => exact hne hd
  | cons k ks =>
    rw [hd, List.length_cons, List.take_succ_cons, List.map_cons, beq_iff_eq] at h1
    have hk : pyUpperChar c = k := by injection h1
    have hw : isWordChar k = true := hall k (by rw [hd]; simp)
    rw [← hk, isWordChar_pyUpperChar, hc] at hw
    exact Bool.false_ne_true hw

theorem scanKw_leading_spaces (ws : List Char) :
    ∀ (l : List Char), (∀ c ∈ ws, pyIsSpace c = true) →
    scanKw false (ws ++ l) = scanKw false l := by
  induction ws with
  | nil => intro l _; rfl
  | cons w t ih =>
    intro l hws
    have hw : pyIsSpace w = true := hws w (by simp)
    have hnw : isWordChar w = false := isWordChar_of_pyIsSpace hw
    show scanKw false (w :: (t ++ l)) = _
    have hmatch : (writeKeywords.any fun kw => kwMatchAt kw.data (w :: (t ++ l))) = false := by
      rw [List.any_eq_false]
      intro kw hkw
      simp [kwMatchAt_not_word hkw _ _ hnw]
    conv_lhs => rw [scanKw]
    rw [hmatch, hnw]
    simpa using ih l (fun c hc => hws c (by simp [hc]))

theorem scanKw_all_space (ws : List Char) :
    ∀ (prev : Bool), (∀ c ∈ ws, pyIsSpace c = true) → scanKw prev ws = false := by
  induction ws with
  | nil => intro prev _; rfl
  | cons w t ih =>
    intro prev hws
    have hw : pyIsSpace w = true := hws w (by simp)
    have hnw : isWordChar w = false := isWordChar_of_pyIsSpace hw
    unfold scanKw
    have hmatch : (writeKeywords.any fun kw => kwMatchAt kw.data (w :: t)) = false := by
      rw [List.any_eq_false]
      intro kw hkw
      simp [kwMatchAt_not_word hkw _ _ hnw]
    rw [hmatch, ih _ (fun c hc => hws c (by simp [hc]))]
    simp

theorem kwMatchAt_append_spaces {kw : String} (hkw : kw ∈ writeKeywords)
    (m ws : List Char) (hws : ∀ c ∈ ws, pyIsSpace c = true) :
    kwMatchAt kw.data (m ++ ws) = kwMatchAt kw.data m := by
  obtain ⟨hne, hall⟩ := writeKeywords_shape kw hkw
  by_cases hle : kw.data.length ≤ m.length
  · unfold kwMatchAt
    rw [List.take_append_of_le_length hle, List.drop_append_of_le_length hle]
    cases hdrop : m.drop kw.data.length with
    | nil =>
      simp only [List.nil_append]
      cases hws2 : ws with
      | nil => rfl
      | cons w t =>
        have hw : pyIsSpace w = true := hws w (by rw [hws2]; simp)
        have hnw : isWordChar w = false := isWordChar_of_pyIsSpace hw
        simp [hnw]
    | cons d t => simp
  · push_neg at hle
    have hrhs : kwMatchAt kw.data m = false := by
      apply Bool.eq_false_iff.mpr
      intro h
      unfold kwMatchAt at h
      rw [Bool.and_eq_true] at h
      obtain ⟨h1, -⟩ := h
      rw [beq_iff_eq] at h1
      have := congrArg List.length h1
      rw [List.length_map, List.length_take] at this
      omega
    rw [hrhs]
    apply Bool.eq_false_iff.mpr
    intro h
    unfold kwMatchAt at h
    rw [Bool.and_eq_true] at h
    obtain ⟨h1, -⟩ := h
    rw [beq_iff_eq] at h1
    have hmlen : m.take kw.data.length = m := List.take_of_length_le (le_of_lt hle)
    rw [List.take_append_eq_append_take, hmlen, List.map_append] at h1
    have hlen := congrArg List.length h1
    rw [List.length_append, List.length_map, List.length_map, List.length_take] at hlen
    have hwslen : (ws.take (kw.data.length - m.length)).length ≥ 1 := by
      rw [List.length_take]
      omega
    cases hwt : ws.take (kw.data.length - m.length) with
    | nil => rw [hwt] at hwslen; simp at hwslen
    | cons w t =>
      have hwmem : w ∈ ws := List.take_subset _ _ (by rw [hwt]; simp)
      have hksp : pyIsSpace w = true := hws w hwmem
      have hknw : isWordChar w = false := isWordChar_of_pyIsSpace hksp
      have hinkw : pyUpperChar w ∈ kw.data := by
        rw [← h1, hwt]
        exact List.mem_append_right _ (by simp)
      have := hall _ hinkw
      rw [isWordChar_pyUpperChar, hknw] at this
      exact Bool.false_ne_true this

theorem scanKw_space_suffix (l : List Char) :
    ∀ (ws : List Char) (prev : Bool), (∀ c ∈ ws, pyIsSpace c = true) →
    scanKw prev (l ++ ws) = scanKw prev l := by
  induction l with
  | nil =>
    intro ws prev hws
    rw [List.nil_append]
    exact scanKw_all_space ws prev hws
  | cons c t ih =>
    intro ws prev hws
    show scanKw prev (c :: (t ++ ws)) = scanKw prev (c :: t)
    unfold scanKw
    have hany : (writeKeywords.any fun kw => kwMatchAt kw.data (c :: (t ++ ws))) =
        (writeKeywords.any fun kw => kwMatchAt kw.data (c :: t)) := by
      apply anyCongr
      intro kw hkw
      have : c :: (t ++ ws) = (c :: t) ++ ws := rfl
      rw [this, kwMatchAt_append_spaces hkw (c :: t) ws hws]
    rw [hany, ih ws _ hws]

theorem pyStrip_decomp (l : List Char) : ∃ ws1 ws2, l = ws1 ++ (pyStrip l ++ ws2) ∧
    (∀ c ∈ ws1, pyIsSpace c = true) ∧ (∀ c ∈ ws2, pyIsSpace c = true) := by
  refine ⟨l.takeWhile pyIsSpace,
    ((l.dropWhile pyIsSpace).reverse.takeWhile pyIsSpace).reverse, ?_, ?_, ?_⟩
  · conv_lhs => rw [← List.takeWhile_append_dropWhile pyIsSpace l]
    congr 1
    have hsplit : l.dropWhile pyIsSpace =
        (((l.dropWhile pyIsSpace).reverse.takeWhile pyIsSpace) ++
          ((l.dropWhile pyIsSpace).reverse.dropWhile pyIsSpace)).reverse := by
      rw [List.takeWhile_append_dropWhile, List.reverse_reverse]
    conv_lhs => rw [hsplit]
    rw [List.reverse_append]
    rfl
  · intro c hc; exact List.mem_takeWhile_imp hc
  · intro c hc; rw [List.mem_reverse] at hc; exact List.mem_takeWhile_imp hc

theorem isWriteQuery_pyStrip (l : List Char) : isWriteQuery l = isWriteQuery (pyStrip l) := by
  obtain ⟨ws1, ws2, hdec, h1, h2⟩ := pyStrip_decomp l
  unfold isWriteQuery
  conv_lhs => rw [hdec]
  rw [scanKw_leading_spaces ws1 _ h1]
  exact scanKw_space_suffix (pyStrip l) ws2 false h2

theorem semiAfterWord_map_upper (l : List Char) :
    semiAfterWord (l.map pyUpperChar) = semiAfterWord l := by
  unfold semiAfterWord
  rw [List.dropWhile_map]
  have hfun : (pyIsSpace ∘ pyUpperChar) = pyIsSpace := funext pyIsSpace_pyUpperChar
  rw [hfun]
  cases l.dropWhile pyIsSpace with
  | nil => rfl
  | cons d t => simp [isWordChar_pyUpperChar]

theorem hasSemiChain_map_upper (l : List Char) :
    hasSemiChain (l.map pyUpperChar) = hasSemiChain l := by
  induction l with
  | nil => rfl
  | cons c cs ih =>
    show hasSemiChain (pyUpperChar c :: cs.map pyUpperChar) = _
    unfold hasSemiChain
    rw [pyUpperChar_eq_semi, semiAfterWord_map_upper, ih]

/-- C1: `is_read_only_clinical_query` returns true exactly when, after removing
every `--` single-line comment, the trimmed text begins case-insensitively with
SELECT, WITH or DECLARE, contains no blocked keyword as a whole word
(case-insensitively), and contains no semicolon followed by optional whitespace
and a word character; in particular a blocked keyword appearing only inside a
`--` comment does not cause rejection, and a single trailing semicolon is
accepted. -/
theorem claim_C1_read_only_validator :
    (∀ q : String, is_read_only_clinical_query q = specReadOnlyQuery q) ∧
    is_read_only_clinical_query "SELECT 1 \x2d\x2d DROP TABLE X" = true ∧
    is_read_only_clinical_query "SELECT 1;" = true := by
  refine ⟨fun q => ?_, by decide, by decide⟩
  unfold is_read_only_clinical_query specReadOnlyQuery
  rw [isWriteQuery_pyStrip (stripComments q.data),
    hasSemiChain_map_upper (pyStrip (stripComments q.data))]

/- ===== C8: namespace formatting ===== -/

theorem strEndsWithDash_append_dash (s : String) : strEndsWithDash (s ++ "-") = true := by
  unfold strEndsWithDash
  rw [String.data_append]
  show ((s.data ++ ['-']).getLast? == some '-') = true
  rw [List.getLast?_concat]
  rfl

theorem append_dash_ne_empty (s : String) : s ++ "-" ≠ "" := by
  intro h
  have hd := congrArg String.data h
  rw [String.data_append] at hd
  simp at hd

/-- C8: the namespace formatter maps the empty prefix to the empty string and
a non-empty prefix to itself with a trailing dash appended unless already
present; it is idempotent, prefixes CDW and CDW- both publish the free-form
query tool as CDW-query, and the empty prefix publishes the bare name. -/
theorem claim_C8_namespace_formatting :
    formatNamespace "" = "" ∧
    (∀ p : String, p ≠ "" →
      formatNamespace p = (if strEndsWithDash p then p else p ++ "-")) ∧
    (∀ p : String, formatNamespace (formatNamespace p) = formatNamespace p) ∧
    formatNamespace "CDW" ++ "query" = "CDW-query" ∧
    formatNamespace "CDW-" ++ "query" = "CDW-query" ∧
    formatNamespace "" ++ "query" = "query" := by
  refine ⟨rfl, fun p hp => by rw [formatNamespace, if_neg hp], fun p => ?_,
    by decide, by decide, by decide⟩
  by_cases hp : p = ""
  · rw [hp]; rfl
  · by_cases hd : strEndsWithDash p = true
    · have h1 : formatNamespace p = p := by rw [formatNamespace, if_neg hp, if_pos hd]
      rw [h1]; exact h1
    · have h1 : formatNamespace p = p ++ "-" := by rw [formatNamespace, if_neg hp, if_neg hd]
      rw [h1, formatNamespace, if_neg (append_dash_ne_empty p),
        if_pos (strEndsWithDash_append_dash p)]

/-- Witness for C8 at the concrete prefix CDW. -/
theorem claim_C8_witness :
    formatNamespace "CDW" = (if strEndsWithDash "CDW" then "CDW" else "CDW" ++ "-") :=
  claim_C8_namespace_formatting.2.1 "CDW" (by decide)

/- ===== C2: building the server fails for every configuration ===== -/

/-- C2 (code bug): for every configuration, `create_cdw_server` does not
succeed: the call `register_notes_tools(mcp, ns, db_config, schema)` passes
four positional arguments to a function defined with three parameters
(notes.py line 38), so the Python interpreter raises TypeError before the
notes, export, concept and stats modules can be registered; the claim (and
server.py's own call sites, which supply the schema qualifier to the notes
and concept modules) says the build succeeds. -/
theorem claim_C2_server_build_raises (config : CDWConfig) :
    create_cdw_server config =
      .error "TypeError: register_notes_tools() takes 3 positional arguments but 4 were given" := by
  simp [create_cdw_server, serverCalls, runRegistrations]
  rfl

/-- Witness for C2 at a concrete configuration. -/
theorem claim_C2_witness :
    create_cdw_server ⟨⟨"s", "d", "u", "p"⟩, "CDW", "deid_uf", "INFO"⟩ =
      .error "TypeError: register_notes_tools() takes 3 positional arguments but 4 were given" :=
  claim_C2_server_build_raises ⟨⟨"s", "d", "u", "p"⟩, "CDW", "deid_uf", "INFO"⟩

/- ===== C10: the summarize_table name gate ===== -/

/-- C10: `summarize_table` rejects with "Invalid table name", before opening
any database connection (first component `false`), every name containing a
character outside letters, digits, underscore and period, and also the empty
name and every name made up entirely of underscores and periods, since Python
`isalnum` is false on the empty string left after stripping those characters. -/
theorem claim_C10_table_name_gate (db : StatsDB) (schema t : String) :
    ((∃ c ∈ t.data, isAsciiAlnum c = false ∧ c ≠ '_' ∧ c ≠ '.') →
      summarize_table db schema t = (false, .error "Invalid table name")) ∧
    (t.data ≠ [] → (∀ c ∈ t.data, c = '_' ∨ c = '.') →
      summarize_table db schema t = (false, .error "Invalid table name")) ∧
    summarize_table db schema "" = (false, .error "Invalid table name") := by
  have hemp : validTableName "" = false := by decide
  refine ⟨fun ⟨c, hmem, hnal, hne1, hne2⟩ => ?_, fun hne hall => ?_,
    by simp [summarize_table, hemp]⟩
  · have hval : validTableName t = false := by
      unfold validTableName pyIsAlnumStr
      have hcf : c ∈ t.data.filter (fun c => !(c == '_') && !(c == '.')) :=
        List.mem_filter.mpr ⟨hmem, by simp [hne1, hne2]⟩
      have hall2 : (t.data.filter (fun c => !(c == '_') && !(c == '.'))).all isAsciiAlnum = false := by
        apply Bool.eq_false_iff.mpr
        intro hx
        rw [List.all_eq_true] at hx
        rw [hx c hcf] at hnal
        exact absurd hnal (by decide)
      rw [hall2]
      simp
    simp [summarize_table, hval]
  · have hval : validTableName t = false := by
      unfold validTableName pyIsAlnumStr
      have hfil : t.data.filter (fun c => !(c == '_') && !(c == '.')) = [] := by
        rw [List.filter_eq_nil_iff]
        intro a ha
        rcases hall a ha with h | h <;> simp [h]
      rw [hfil]
      rfl
    simp [summarize_table, hval]

/-- Witness for C10 at the names "bad name" (contains a space) and "_."
(entirely underscores and periods). -/
theorem claim_C10_witness :
    summarize_table ⟨0, [], fun _ => 0⟩ "deid_uf" "bad name" =
      (false, .error "Invalid table name") ∧
    summarize_table ⟨0, [], fun _ => 0⟩ "deid_uf" "_." =
      (false, .error "Invalid table name") :=
  ⟨(claim_C10_table_name_gate ⟨0, [], fun _ => 0⟩ "deid_uf" "bad name").1
      ⟨' ', by decide, by decide⟩,
   (claim_C10_table_name_gate ⟨0, [], fun _ => 0⟩ "deid_uf" "_.").2.1
      (by decide) (by decide)⟩

/- ===== C9: null percentage, including the empty-table case ===== -/

/-- C9: `summarize_table` computes `null_pct = 0` for every column of a table
whose row count is 0 (no division by zero), and for row count r > 0 and null
count k the percentage is k / r * 100 rounded to one decimal place. -/
theorem claim_C9_null_pct (db : StatsDB) (schema t : String) :
    (∀ k : Nat, null_pct k 0 = 0) ∧
    (∀ k r : Nat, 0 < r → null_pct k r = pyRound1 ((k : ℚ) / (r : ℚ) * 100)) ∧
    (∀ summ, (summarize_table db schema t).2 = .ok summ → db.rowCount = 0 →
      ∀ cs ∈ summ.columns, cs.null_pct = 0) := by
  refine ⟨fun k => by simp [null_pct], fun k r hr => by simp [null_pct, hr],
    fun summ hsum h0 cs hcs => ?_⟩
  by_cases hv : validTableName t = true
  · simp only [summarize_table, hv, Bool.not_true, Bool.false_eq_true, if_false,
      Except.ok.injEq] at hsum
    subst hsum
    obtain ⟨nc, -, rfl⟩ := List.mem_map.mp hcs
    show null_pct (db.nullCount nc.1) db.rowCount = 0
    rw [h0]
    simp [null_pct]
  · rw [Bool.not_eq_true] at hv
    simp [summarize_table, hv] at hsum

/-- Witness for C9: a concrete empty table and a concrete 1-of-2 null count. -/
theorem claim_C9_witness :
    null_pct 3 0 = 0 ∧
    null_pct 1 2 = pyRound1 ((1 : ℚ) / (2 : ℚ) * 100) ∧
    ({ name := "A", data_type := "int", null_count := 0,
       null_pct := null_pct 0 0 } : ColumnStat).null_pct = 0 :=
  ⟨(claim_C9_null_pct ⟨0, [], fun _ => 0⟩ "deid_uf" "T").1 3,
   (claim_C9_null_pct ⟨0, [], fun _ => 0⟩ "deid_uf" "T").2.1 1 2 (by norm_num),
   (claim_C9_null_pct ⟨0, [("A", "int")], fun _ => 0⟩ "deid_uf" "T").2.2
     ⟨"deid_uf.T", 0, [⟨"A", "int", 0, null_pct 0 0⟩]⟩ rfl rfl
     ⟨"A", "int", 0, null_pct 0 0⟩ (by simp)⟩

/- ===== C7: describe_table lookup and fallback ===== -/

theorem lookupDict_of_mem_nodup {α : Type} {schema : List (String × α)}
    (hnd : (schema.map Prod.fst).Nodup) {kv : String × α} (hm : kv ∈ schema) :
    lookupDict schema kv.1 = some kv.2 := by
  induction schema with
  | nil => cases hm
  | cons x xs ih =>
    rw [List.map_cons, List.nodup_cons] at hnd
    cases hx : x.1 == kv.1 with
    | true =>
      have hkv : x = kv := by
        rcases List.mem_cons.mp hm with rfl | hmem
        · rfl
        · exact absurd (beq_iff_eq.mp hx ▸ List.mem_map.mpr ⟨kv, hmem, rfl⟩) hnd.1
      simp [lookupDict, List.find?_cons, hx, hkv]
    | false =>
      have hmem : kv ∈ xs := by
        rcases List.mem_cons.mp hm with rfl | hmem
        · simp at hx
        · exact hmem
      simp only [lookupDict, List.find?_cons, hx]
      simpa [lookupDict] using ih hnd.2 hmem

/-- C7: `describe_table` resolves an exact match first, then the first
case-insensitive match; it fails with the "not found" message naming the
table and suggesting get_database_overview exactly when neither kind of
match exists; and a successful result is exactly what a request with the
resolved (exactly stored) table name returns. -/
theorem claim_C7_describe_table {α : Type} (schema : List (String × α)) (name : String)
    (hnd : (schema.map Prod.fst).Nodup) :
    (∀ v, lookupDict schema name = some v → describe_table schema name = .ok (name, v)) ∧
    ((∃ e, describe_table schema name = .error e) ↔
      ∀ kv ∈ schema, kv.1 ≠ name ∧ lowerStr kv.1 ≠ lowerStr name) ∧
    (∀ e, describe_table schema name = .error e →
      e = "Table " ++ name ++
        " not found. Use get_database_overview to see available tables.") ∧
    (∀ k v, describe_table schema name = .ok (k, v) →
      describe_table schema k = .ok (k, v)) := by
  refine ⟨fun v hv => by rw [describe_table, hv], ?_, ?_, ?_⟩
  · constructor
    · rintro ⟨e, he⟩ kv hkv
      unfold describe_table at he
      cases h1 : lookupDict schema name with
      | some v => rw [h1] at he; cases he
      | none =>
        rw [h1] at he
        cases h2 : schema.find? (fun kv => lowerStr kv.1 == lowerStr name) with
        | some kv2 => rw [h2] at he; cases he
        | none =>
          constructor
          · intro hname
            unfold lookupDict at h1
            rw [List.find?_eq_none] at h2
            have hx := List.find?_eq_none.mp (by
              cases hf : schema.find? (fun p => p.1 == name) with
              | some p => rw [hf] at h1; cases h1
              | none => rfl) kv hkv
            rw [hname] at hx
            simp at hx
          · intro hlow
            have hx := List.find?_eq_none.mp h2 kv hkv
            rw [hlow] at hx
            simp at hx
    · intro hall
      have h1 : lookupDict schema name = none := by
        unfold lookupDict
        rw [List.find?_eq_none.mpr ?_]
        · rfl
        · intro kv hkv
          simp [(hall kv hkv).1]
      have h2 : schema.find? (fun kv => lowerStr kv.1 == lowerStr name) = none := by
        rw [List.find?_eq_none]
        intro kv hkv
        simp [(hall kv hkv).2]
      exact ⟨_, by rw [describe_table, h1, h2]⟩
  · intro e he
    unfold describe_table at he
    cases h1 : lookupDict schema name with
    | some v => rw [h1] at he; cases he
    | none =>
      rw [h1] at he
      cases h2 : schema.find? (fun kv => lowerStr kv.1 == lowerStr name) with
      | some kv2 => rw [h2] at he; cases he
      | none =>
        rw [h2] at he
        cases he
        rfl
  · intro k v hok
    unfold describe_table at hok
    cases h1 : lookupDict schema name with
    | some v0 =>
      rw [h1] at hok
      cases hok
      rw [describe_table, h1]
    | none =>
      rw [h1] at hok
      cases h2 : schema.find? (fun kv => lowerStr kv.1 == lowerStr name) with
      | some kv2 =>
        rw [h2] at hok
        cases hok
        have hmem := List.mem_of_find?_eq_some h2
        rw [describe_table, lookupDict_of_mem_nodup hnd hmem]
      | none =>
        rw [h2] at hok
        cases hok

/-- Witness for C7: with only "PatientDim" stored, the lowercase request
resolves to the same entry as the exactly-spelt request. -/
theorem claim_C7_witness :
    describe_table [("PatientDim", (0 : Nat))] "PatientDim" = .ok ("PatientDim", 0) :=
  (claim_C7_describe_table [("PatientDim", (0 : Nat))] "patientdim" (by simp)).2.2.2
    "PatientDim" 0 (by rfl)

/- ===== C3: row limits in the query tools ===== -/

/-- C3 counterexample: the free-form `query` tool does not apply the row
limit as a SQL row-limiting clause — with row limit 5 the executed statement
is the caller's SQL unchanged, contains no TOP clause and no occurrence of 5,
and is identical to the statement executed with row limit 1000. -/
theorem claim_C3_counterexample :
    query_executed_sql "SELECT ColA FROM T" 5 = "SELECT ColA FROM T" ∧
    strHasSub "TOP" (query_executed_sql "SELECT ColA FROM T" 5) = false ∧
    strHasSub "5" (query_executed_sql "SELECT ColA FROM T" 5) = false ∧
    query_executed_sql "SELECT ColA FROM T" 5 =
      query_executed_sql "SELECT ColA FROM T" 1000 :=
  ⟨rfl, by decide, by decide, rfl⟩

theorem strStartsWith_append (pre t : String) :
    pre.data.isPrefixOf ((pre ++ t).data) = true := by
  rw [String.data_append, List.isPrefixOf_iff_prefix]
  exact List.prefix_append pre.data t.data

/-- C3 (amended): the limit n bounds the rows fetched from the cursor in
every query tool, and the data rows of the returned CSV never exceed that
fetch bound; but only the four canned fact lookups also place n in the
executed statement (as SELECT TOP n); the free-form tool executes the
caller's SQL unchanged, and get_patient_demographics executes SELECT TOP 1
while fetching with the default bound 1000. -/
theorem claim_C3_row_limits (sql schema pid factTable dateKey : String) (n : Nat)
    (cur : Cursor) :
    query_executed_sql sql n = sql ∧
    (fetchedRows n cur).length ≤ n ∧
    (is_read_only_clinical_query sql = true → cur.description ≠ [] →
      query_tool sql n cur = .ok (csvText cur.description (fetchedRows n cur))) ∧
    ("SELECT TOP " ++ toString n).data.isPrefixOf
      (canned_lookup_sql factTable dateKey schema pid n).data = true ∧
    (is_read_only_clinical_query (canned_lookup_sql factTable dateKey schema pid n) = true →
      cur.description ≠ [] →
      canned_lookup_tool factTable dateKey schema pid n cur =
        .ok (csvText cur.description (fetchedRows n cur))) ∧
    ("SELECT TOP 1 ").data.isPrefixOf (get_patient_demographics_sql schema pid).data = true ∧
    (is_read_only_clinical_query (get_patient_demographics_sql schema pid) = true →
      cur.description ≠ [] →
      get_patient_demographics_tool schema pid cur =
        .ok (csvText cur.description (fetchedRows DEFAULT_ROW_LIMIT cur))) ∧
    (fetchedRows DEFAULT_ROW_LIMIT cur).length ≤ 1000 := by
  refine ⟨rfl, List.length_take_le n cur.rows, fun hok hdesc => ?_, ?_, fun hok hdesc => ?_,
    ?_, fun hok hdesc => ?_, List.length_take_le 1000 cur.rows⟩
  · rw [query_tool, query_executed_sql, execute_readonly_query, if_neg (by rw [hok]; simp),
      if_neg hdesc]
  · rw [List.isPrefixOf_iff_prefix]
    simp only [canned_lookup_sql, String.data_append, List.append_assoc]
    rw [← List.append_assoc]
    exact List.prefix_append _ _
  · rw [canned_lookup_tool, execute_readonly_query, if_neg (by rw [hok]; simp),
      if_neg hdesc]
  · rw [List.isPrefixOf_iff_prefix]
    simp only [get_patient_demographics_sql, String.data_append, List.append_assoc]
    have h1 : ("SELECT TOP 1 ").data <+: ("SELECT TOP 1 * FROM ").data :=
      ⟨"* FROM ".data, by decide⟩
    exact h1.trans (List.prefix_append _ _)
  · rw [get_patient_demographics_tool, execute_readonly_query, if_neg (by rw [hok]; simp),
      if_neg hdesc]

/-- Witness for C3 at a concrete two-row cursor with fetch bound 1. -/
theorem claim_C3_witness :
    query_tool "SELECT A FROM deid_uf.PatientDim" 1
        ⟨["A"], [[some "1"], [some "2"]]⟩ =
      .ok (csvText ["A"] (fetchedRows 1 ⟨["A"], [[some "1"], [some "2"]]⟩)) ∧
    canned_lookup_tool "E" "K" "d" "p" 1 ⟨["A"], [[some "1"], [some "2"]]⟩ =
      .ok (csvText ["A"] (fetchedRows 1 ⟨["A"], [[some "1"], [some "2"]]⟩)) ∧
    (fetchedRows 1 (⟨["A"], [[some "1"], [some "2"]]⟩ : Cursor)).length ≤ 1 :=
  ⟨(claim_C3_row_limits "SELECT A FROM deid_uf.PatientDim" "d" "p" "E" "K" 1
      ⟨["A"], [[some "1"], [some "2"]]⟩).2.2.1 (by decide) (by decide),
   (claim_C3_row_limits "SELECT A FROM deid_uf.PatientDim" "d" "p" "E" "K" 1
      ⟨["A"], [[some "1"], [some "2"]]⟩).2.2.2.2.1 (by decide) (by decide),
   (claim_C3_row_limits "SELECT A FROM deid_uf.PatientDim" "d" "p" "E" "K" 1
      ⟨["A"], [[some "1"], [some "2"]]⟩).2.1⟩

/- ===== C4: cohort_summary identifier-column fallback ===== -/

theorem cohortProceed_spec (db : CohortDB) (schema subq : String) (demo : Bool)
    (idcol : String) (c : Int) (r : CohortResult)
    (h : cohortProceed db schema subq demo idcol c = .ok r) :
    r.id_column = idcol ∧ r.patient_count = c ∧
    (demo = true → c > 0 →
      (∃ s, db.groups (cohort_breakdown_sql schema "Sex" idcol subq) = .ok s ∧
        r.sex = some s) ∧
      (∃ s, db.groups (cohort_breakdown_sql schema "FirstRace" idcol subq) = .ok s ∧
        r.race = some s) ∧
      (∃ s, db.groups (cohort_breakdown_sql schema "Ethnicity" idcol subq) = .ok s ∧
        r.ethnicity = some s)) := by
  unfold cohortProceed at h
  by_cases hd : demo = true ∧ c > 0
  · rw [if_pos hd] at h
    cases h1 : db.groups (cohort_breakdown_sql schema "Sex" idcol subq) with
    | error e => simp only [h1] at h; exact Except.noConfusion h
    | ok sexB =>
      simp only [h1] at h
      cases h2 : db.groups (cohort_breakdown_sql schema "FirstRace" idcol subq) with
      | error e => simp only [h2] at h; exact Except.noConfusion h
      | ok raceB =>
        simp only [h2] at h
        cases h3 : db.groups (cohort_breakdown_sql schema "Ethnicity" idcol subq) with
        | error e => simp only [h3] at h; exact Except.noConfusion h
        | ok ethB =>
          simp only [h3, Except.ok.injEq] at h
          subst h
          exact ⟨rfl, rfl, fun _ _ =>
            ⟨⟨sexB, rfl, rfl⟩, ⟨raceB, rfl, rfl⟩, ⟨ethB, rfl, rfl⟩⟩⟩
  · rw [if_neg hd] at h
    rw [Except.ok.injEq] at h
    subst h
    exact ⟨rfl, rfl, fun hdt hc => absurd ⟨hdt, hc⟩ hd⟩

/-- C4: `cohort_summary` counts with PatientDurableKey first; only when that
statement raises does it retry with PatientKey, and the first failure is
never surfaced (the outcome is exactly the outcome of the PatientKey
attempt); `id_column` equals whichever column the successful count used and
that same column filters every demographic breakdown. -/
theorem claim_C4_cohort_fallback (db : CohortDB) (schema subq : String) (demo : Bool)
    (hvalid : is_read_only_clinical_query subq = true) :
    (∀ c, db.count (cohort_count_sql "PatientDurableKey" subq) = .ok c →
      cohort_summary db schema subq demo =
        cohortProceed db schema subq demo "PatientDurableKey" c) ∧
    (∀ e, db.count (cohort_count_sql "PatientDurableKey" subq) = .error e →
      cohort_summary db schema subq demo =
        (match db.count (cohort_count_sql "PatientKey" subq) with
         | .ok c => cohortProceed db schema subq demo "PatientKey" c
         | .error e2 => .error e2)) ∧
    (∀ r, cohort_summary db schema subq demo = .ok r →
      ((∃ c, db.count (cohort_count_sql "PatientDurableKey" subq) = .ok c ∧
          r.id_column = "PatientDurableKey" ∧ r.patient_count = c) ∨
       (∃ e c, db.count (cohort_count_sql "PatientDurableKey" subq) = .error e ∧
          db.count (cohort_count_sql "PatientKey" subq) = .ok c ∧
          r.id_column = "PatientKey" ∧ r.patient_count = c))) ∧
    (∀ r, cohort_summary db schema subq demo = .ok r → demo = true →
      r.patient_count > 0 →
      (∃ s, db.groups (cohort_breakdown_sql schema "Sex" r.id_column subq) = .ok s ∧
        r.sex = some s) ∧
      (∃ s, db.groups (cohort_breakdown_sql schema "FirstRace" r.id_column subq) = .ok s ∧
        r.race = some s) ∧
      (∃ s, db.groups (cohort_breakdown_sql schema "Ethnicity" r.id_column subq) = .ok s ∧
        r.ethnicity = some s)) := by
  have hbase : cohort_summary db schema subq demo =
      (match db.count (cohort_count_sql "PatientDurableKey" subq) with
       | .ok c => cohortProceed db schema subq demo "PatientDurableKey" c
       | .error _ =>
         match db.count (cohort_count_sql "PatientKey" subq) with
         | .ok c => cohortProceed db schema subq demo "PatientKey" c
         | .error e => .error e) := by
    unfold cohort_summary
    exact if_neg (not_not_intro hvalid)
  refine ⟨fun c hc => ?_, fun e he => ?_, fun r hr => ?_, fun r hr hdemo hpos => ?_⟩
  · rw [hbase]
    simp only [hc]
  · rw [hbase]
    simp only [he]
  · rw [hbase] at hr
    cases hdur : db.count (cohort_count_sql "PatientDurableKey" subq) with
    | ok c =>
      simp only [hdur] at hr
      obtain ⟨h1, h2, -⟩ := cohortProceed_spec db schema subq demo _ c r hr
      exact Or.inl ⟨c, rfl, h1, h2⟩
    | error e =>
      simp only [hdur] at hr
      cases hpk : db.count (cohort_count_sql "PatientKey" subq) with
      | ok c =>
        simp only [hpk] at hr
        obtain ⟨h1, h2, -⟩ := cohortProceed_spec db schema subq demo _ c r hr
        exact Or.inr ⟨e, c, rfl, rfl, h1, h2⟩
      | error e2 => simp only [hpk] at hr; exact Except.noConfusion hr
  · rw [hbase] at hr
    cases hdur : db.count (cohort_count_sql "PatientDurableKey" subq) with
    | ok c =>
      simp only [hdur] at hr
      obtain ⟨h1, h2, h3⟩ := cohortProceed_spec db schema subq demo _ c r hr
      rw [h1]
      exact h3 hdemo (h2 ▸ hpos)
    | error e =>
      simp only [hdur] at hr
      cases hpk : db.count (cohort_count_sql "PatientKey" subq) with
      | ok c =>
        simp only [hpk] at hr
        obtain ⟨h1, h2, h3⟩ := cohortProceed_spec db schema subq demo _ c r hr
        rw [h1]
        exact h3 hdemo (h2 ▸ hpos)
      | error e2 => simp only [hpk] at hr; exact Except.noConfusion hr

/-- Witness for C4: a database where the PatientDurableKey count succeeds,
and one where it raises and the PatientKey retry succeeds. -/
theorem claim_C4_witness :
    cohort_summary ⟨fun _ => .ok 3, fun _ => .ok []⟩ "deid_uf" "SELECT 1" false =
      cohortProceed ⟨fun _ => .ok 3, fun _ => .ok []⟩ "deid_uf" "SELECT 1" false
        "PatientDurableKey" 3 ∧
    cohort_summary
        ⟨fun sql => if sql = cohort_count_sql "PatientDurableKey" "SELECT 1"
           then .error "Invalid column name" else .ok 2,
         fun _ => .ok []⟩ "deid_uf" "SELECT 1" false =
      (match (if cohort_count_sql "PatientKey" "SELECT 1" =
                cohort_count_sql "PatientDurableKey" "SELECT 1"
              then (.error "Invalid column name" : Except String Int) else .ok 2) with
       | .ok c => cohortProceed
           ⟨fun sql => if sql = cohort_count_sql "PatientDurableKey" "SELECT 1"
              then .error "Invalid column name" else .ok 2,
            fun _ => .ok []⟩ "deid_uf" "SELECT 1" false "PatientKey" c
       | .error e2 => .error e2) :=
  ⟨(claim_C4_cohort_fallback ⟨fun _ => .ok 3, fun _ => .ok []⟩ "deid_uf" "SELECT 1" false
      (by decide)).1 3 rfl,
   (claim_C4_cohort_fallback
      ⟨fun sql => if sql = cohort_count_sql "PatientDurableKey" "SELECT 1"
         then .error "Invalid column name" else .ok 2,
       fun _ => .ok []⟩ "deid_uf" "SELECT 1" false (by decide)).2.1
      "Invalid column name" (by simp)⟩

/- ===== C5: export_query_to_csv ===== -/

theorem chunks_join {α : Type} (n : Nat) (l : List α) : (chunks n l).flatten = l := by
  induction l using chunks.induct n with
  | case1 => rw [chunks]; rfl
  | case2 x xs ih =>
    rw [chunks]
    simp only [List.flatten_cons, ih, List.cons_append, List.take_append_drop]

theorem chunks_length_le {α : Type} (n : Nat) (hn : 1 ≤ n) (l : List α) :
    ∀ b ∈ chunks n l, b.length ≤ n := by
  induction l using chunks.induct n with
  | case1 => intro b hb; rw [chunks] at hb; cases hb
  | case2 x xs ih =>
    intro b hb
    rw [chunks] at hb
    rcases List.mem_cons.mp hb with rfl | hb2
    · simp only [List.length_cons, List.length_take]
      omega
    · exact ih b hb2

theorem chunks_sum_length {α : Type} (n : Nat) (l : List α) :
    ((chunks n l).map List.length).sum = l.length := by
  rw [← List.length_flatten, chunks_join]

/-- C5: `export_query_to_csv` raises before opening a connection and writes
no file when the SQL fails the validator or the destination's parent
directory is missing (the error names the missing directory); with no result
columns it reports "no results" and writes no file; otherwise it writes
exactly one header row followed by all result rows, fetched in batches of at
most 5000 that reassemble to the full row set, and reports the total row
count and destination path; the connection is closed whenever it was opened. -/
theorem claim_C5_export (sql filepath parentDir : String) (parentExists : Bool)
    (cur : Cursor) :
    (is_read_only_clinical_query sql = false →
      export_query_to_csv sql filepath parentDir parentExists cur =
        ⟨false, false, none, .error "Only SELECT queries are allowed for export."⟩) ∧
    (is_read_only_clinical_query sql = true → parentExists = false →
      export_query_to_csv sql filepath parentDir parentExists cur =
        ⟨false, false, none, .error ("Directory does not exist: " ++ parentDir)⟩) ∧
    (is_read_only_clinical_query sql = true → parentExists = true →
      cur.description = [] →
      export_query_to_csv sql filepath parentDir parentExists cur =
        ⟨true, true, none, .ok "Query returned no results. No file created."⟩) ∧
    (is_read_only_clinical_query sql = true → parentExists = true →
      cur.description ≠ [] →
      export_query_to_csv sql filepath parentDir parentExists cur =
        ⟨true, true, some (cur.description, cur.rows),
          .ok ("Exported " ++ toString cur.rows.length ++ " rows to " ++ filepath)⟩) ∧
    (∀ b ∈ chunks 5000 cur.rows, b.length ≤ 5000) ∧
    ((chunks 5000 cur.rows).flatten = cur.rows) ∧
    (export_query_to_csv sql filepath parentDir parentExists cur).connClosed =
      (export_query_to_csv sql filepath parentDir parentExists cur).connOpened := by
  refine ⟨fun hv => ?_, fun hv hp => ?_, fun hv hp hd => ?_, fun hv hp hd => ?_,
    chunks_length_le 5000 (by omega) cur.rows, chunks_join 5000 cur.rows, ?_⟩
  · rw [export_query_to_csv, if_pos (by rw [hv]; simp)]
  · rw [export_query_to_csv, if_neg (by rw [hv]; simp), if_pos (by rw [hp]; simp)]
  · rw [export_query_to_csv, if_neg (by rw [hv]; simp), if_neg (by rw [hp]; simp),
      if_pos hd]
  · rw [export_query_to_csv, if_neg (by rw [hv]; simp), if_neg (by rw [hp]; simp),
      if_neg hd, chunks_sum_length, chunks_join]
  · unfold export_query_to_csv
    split
    · rfl
    · split
      · rfl
      · split
        · rfl
        · rfl

/-- Witness for C5: a rejected statement, and a one-column one-row export. -/
theorem claim_C5_witness :
    export_query_to_csv "DROP TABLE X" "/tmp/out.csv" "/tmp" true ⟨["A"], [[none]]⟩ =
      ⟨false, false, none, .error "Only SELECT queries are allowed for export."⟩ ∧
    export_query_to_csv "SELECT 1" "/tmp/out.csv" "/tmp" true ⟨["A"], [[none]]⟩ =
      ⟨true, true, some (["A"], [[none]]),
        .ok ("Exported " ++ toString ([[(none : Option String)]]).length ++
          " rows to " ++ "/tmp/out.csv")⟩ :=
  ⟨(claim_C5_export "DROP TABLE X" "/tmp/out.csv" "/tmp" true ⟨["A"], [[none]]⟩).1
      (by decide),
   (claim_C5_export "SELECT 1" "/tmp/out.csv" "/tmp" true ⟨["A"], [[none]]⟩).2.2.2.1
      (by decide) rfl (by decide)⟩

/- ===== C6: the data-dictionary converter ===== -/

theorem charListLe_total (as bs : List Char) :
    charListLe as bs = true ∨ charListLe bs as = true := by
  induction as generalizing bs with
  | nil => left; rfl
  | cons a as ih =>
    cases bs with
    | nil => right; rfl
    | cons b bs =>
      unfold charListLe
      by_cases hab : a.toNat < b.toNat
      · left; simp [hab]
      · by_cases hba : b.toNat < a.toNat
        · right; simp [hba]
        · rw [if_neg hab, if_neg hba, if_neg hba, if_neg hab]
          exact ih bs

theorem charListLe_trans (as : List Char) : ∀ (bs cs : List Char),
    charListLe as bs = true → charListLe bs cs = true → charListLe as cs = true := by
  induction as with
  | nil => intro bs cs _ _; rfl
  | cons a as ih =>
    intro bs cs h1 h2
    cases bs with
    | nil => rw [show charListLe (a :: as) [] = false from rfl] at h1; cases h1
    | cons b bs =>
      cases cs with
      | nil => rw [show charListLe (b :: bs) [] = false from rfl] at h2; cases h2
      | cons c cs =>
        unfold charListLe at h1 h2 ⊢
        by_cases hab : a.toNat < b.toNat
        · by_cases hbc : b.toNat < c.toNat
          · simp [show a.toNat < c.toNat by omega]
          · by_cases hcb : c.toNat < b.toNat
            · rw [if_neg hbc, if_pos hcb] at h2; cases h2
            · simp [show a.toNat < c.toNat by omega]
        · by_cases hba : b.toNat < a.toNat
          · rw [if_neg hab, if_pos hba] at h1; cases h1
          · by_cases hbc : b.toNat < c.toNat
            · simp [show a.toNat < c.toNat by omega]
            · by_cases hcb : c.toNat < b.toNat
              · rw [if_neg hbc, if_pos hcb] at h2; cases h2
              · rw [if_neg hab, if_neg hba] at h1
                rw [if_neg hbc, if_neg hcb] at h2
                rw [if_neg (show ¬ a.toNat < c.toNat by omega),
                  if_neg (show ¬ c.toNat < a.toNat by omega)]
                exact ih bs cs h1 h2

theorem strLeB_total (a b : String) : strLeB a b = true ∨ strLeB b a = true :=
  charListLe_total a.data b.data

theorem strLeB_trans {a b c : String} (h1 : strLeB a b = true) (h2 : strLeB b c = true) :
    strLeB a c = true :=
  charListLe_trans a.data b.data c.data h1 h2

theorem insertStr_perm (a : String) (l : List String) : (insertStr a l).Perm (a :: l) := by
  induction l with
  | nil => rfl
  | cons b bs ih =>
    rw [insertStr]
    by_cases h : strLeB a b = true
    · rw [if_pos h]
    · rw [if_neg h]
      exact (ih.cons b).trans (List.Perm.swap a b bs)

theorem sortStrs_perm (l : List String) : (sortStrs l).Perm l := by
  induction l with
  | nil => rfl
  | cons a as ih =>
    rw [sortStrs]
    exact (insertStr_perm a (sortStrs as)).trans (ih.cons a)

theorem insertStr_sorted (a : String) (l : List String)
    (h : l.Pairwise (fun x y => strLeB x y = true)) :
    (insertStr a l).Pairwise (fun x y => strLeB x y = true) := by
  induction l with
  | nil => simp [insertStr]
  | cons b bs ih =>
    rw [List.pairwise_cons] at h
    rw [insertStr]
    by_cases hab : strLeB a b = true
    · rw [if_pos hab, List.pairwise_cons]
      refine ⟨fun x hx => ?_, List.pairwise_cons.mpr h⟩
      rcases List.mem_cons.mp hx with rfl | hx2
      · exact hab
      · exact strLeB_trans hab (h.1 x hx2)
    · rw [if_neg hab, List.pairwise_cons]
      refine ⟨fun x hx => ?_, ih h.2⟩
      rcases List.mem_cons.mp ((insertStr_perm a bs).mem_iff.mp hx) with rfl | hx2
      · exact (strLeB_total _ _).resolve_left hab
      · exact h.1 x hx2

theorem sortStrs_sorted (l : List String) :
    (sortStrs l).Pairwise (fun x y => strLeB x y = true) := by
  induction l with
  | nil => exact List.Pairwise.nil
  | cons a as ih => exact insertStr_sorted a (sortStrs as) ih

theorem mem_namesOf {α : Type} (f : α → Option String) (rows : List α) (t : String) :
    t ∈ namesOf f rows ↔ ∃ r ∈ rows, f r = some t ∧ t ≠ "" := by
  rw [namesOf, List.mem_filterMap]
  constructor
  · rintro ⟨r, hr, hv⟩
    by_cases ht : truthy (f r) = true
    · rw [if_pos ht] at hv
      refine ⟨r, hr, hv, ?_⟩
      rw [hv] at ht
      unfold truthy at ht
      simpa using ht
    · rw [if_neg ht] at hv
      cases hv
  · rintro ⟨r, hr, hf, hne⟩
    have ht : truthy (f r) = true := by
      rw [hf]
      unfold truthy
      simpa using hne
    exact ⟨r, hr, by rw [if_pos ht, hf]⟩

theorem parse_keys (trows : List TablesRow) (crows : List ColumnsRow) :
    (parse_data_dictionary trows crows).map Prod.fst =
      sortStrs ((tablesNames trows ++ columnsNames crows).dedup) := by
  rw [parse_data_dictionary, List.map_map]
  exact List.map_id _

/-- C6 counterexample: with an empty Tables sheet and one Columns row for
table "T", the output entry for "T" has NO `has_encounter_data` key at all
(it is absent, not false), contradicting the claim that every Tables-sheet
boolean flag defaults to false. -/
theorem claim_C6_counterexample :
    parse_data_dictionary [] [⟨some "T", some "c", none, none, none, none, none⟩] =
      [("T", ⟨some "", false, false, none, none, none,
        [⟨some "c", none, none, none, none, none⟩]⟩)] ∧
    (⟨some "", false, false, none, none, none,
      [⟨some "c", none, none, none, none, none⟩]⟩ : TableEntry).has_encounter_data ≠
      some false :=
  ⟨by decide, by decide⟩

/-- C6 (amended): the converter's output maps exactly the union of the truthy
table names of the two sheets, sorted and without duplicates; every entry
carries the table's column list (empty when the table has no Columns rows);
a table with no Tables-sheet row gets the default entry: empty description,
`has_patient_data` and `has_phi` false, the column list, and NO
`has_encounter_data` or key-column fields (absent, not false/null); and for
a table with a Tables-sheet row each yes/no marker is true exactly when the
cell is the literal string "Y". -/
theorem claim_C6_converter (trows : List TablesRow) (crows : List ColumnsRow) :
    (∀ t, t ∈ (parse_data_dictionary trows crows).map Prod.fst ↔
      (t ∈ tablesNames trows ∨ t ∈ columnsNames crows)) ∧
    ((parse_data_dictionary trows crows).map Prod.fst).Pairwise
      (fun x y => strLeB x y = true) ∧
    ((parse_data_dictionary trows crows).map Prod.fst).Nodup ∧
    (∀ t e, (t, e) ∈ parse_data_dictionary trows crows →
      e.columns = columnsFor crows t) ∧
    (∀ t e, (t, e) ∈ parse_data_dictionary trows crows →
      t ∉ columnsNames crows → e.columns = []) ∧
    (∀ t e, (t, e) ∈ parse_data_dictionary trows crows →
      tablesEntryFor trows t = none → e = defaultEntry (columnsFor crows t)) ∧
    (∀ t e r, (t, e) ∈ parse_data_dictionary trows crows →
      tablesEntryFor trows t = some r →
      e = mkTablesAttrs r (columnsFor crows t) ∧
      (e.has_patient_data = true ↔ r.has_pat_specific_data = some "Y") ∧
      (e.has_phi = true ↔ r.has_PHI = some "Y") ∧
      (e.has_encounter_data = some true ↔ r.has_enc_specific_data = some "Y")) := by
  have hmem : ∀ t e, (t, e) ∈ parse_data_dictionary trows crows →
      t ∈ (tablesNames trows ++ columnsNames crows).dedup ∧
      e = (match tablesEntryFor trows t with
           | some r => mkTablesAttrs r (columnsFor crows t)
           | none => defaultEntry (columnsFor crows t)) := by
    intro t e hte
    rw [parse_data_dictionary] at hte
    obtain ⟨t2, ht2, heq⟩ := List.mem_map.mp hte
    obtain ⟨rfl, rfl⟩ := Prod.mk.injEq .. ▸ (Prod.ext_iff.mp heq)
    exact ⟨(sortStrs_perm _).mem_iff.mp ht2, rfl⟩
  refine ⟨fun t => ?_, ?_, ?_, fun t e hte => ?_, fun t e hte hnc => ?_,
    fun t e hte hnone => ?_, fun t e r hte hsome => ?_⟩
  · rw [parse_keys, (sortStrs_perm _).mem_iff, List.mem_dedup, List.mem_append]
  · rw [parse_keys]
    exact sortStrs_sorted _
  · rw [parse_keys]
    exact ((sortStrs_perm _).nodup_iff).mpr (List.nodup_dedup _)
  · obtain ⟨-, rfl⟩ := hmem t e hte
    cases tablesEntryFor trows t with
    | some r => rfl
    | none => rfl
  · obtain ⟨ht, rfl⟩ := hmem t e hte
    have htne : t ≠ "" := by
      rw [List.mem_dedup, List.mem_append] at ht
      rcases ht with h | h
      · exact (((mem_namesOf _ trows t).mp h).choose_spec).2.2
      · exact (((mem_namesOf _ crows t).mp h).choose_spec).2.2
    have hcf : columnsFor crows t = [] := by
      rw [columnsFor, List.map_eq_nil_iff]
      rw [List.filter_eq_nil_iff]
      intro r hr hb
      rw [beq_iff_eq] at hb
      exact hnc ((mem_namesOf _ crows t).mpr ⟨r, hr, hb, htne⟩)
    cases h : tablesEntryFor trows t with
    | some r => simp only [h, mkTablesAttrs, hcf]
    | none => simp only [h, defaultEntry, hcf]
  · obtain ⟨-, rfl⟩ := hmem t e hte
    rw [hnone]
  · obtain ⟨-, rfl⟩ := hmem t e hte
    rw [hsome]
    refine ⟨rfl, ?_, ?_, ?_⟩ <;> simp [mkTablesAttrs]

/-- Witness for C6 at a one-row Tables sheet ("B", patient data "Y") and a
one-row Columns sheet ("A"). -/
theorem claim_C6_witness :
    ((defaultEntry (columnsFor [⟨some "A", some "c1", none, none, none, none, none⟩] "A")
        : TableEntry) =
      defaultEntry (columnsFor [⟨some "A", some "c1", none, none, none, none, none⟩] "A")) ∧
    ((mkTablesAttrs ⟨some "B", some "d", some "Y", some "N", some "Y", none, none⟩
        (columnsFor [⟨some "A", some "c1", none, none, none, none, none⟩] "B")).has_patient_data
        = true ↔
      (⟨some "B", some "d", some "Y", some "N", some "Y", none, none⟩ :
        TablesRow).has_pat_specific_data = some "Y") :=
  ⟨(claim_C6_converter [⟨some "B", some "d", some "Y", some "N", some "Y", none, none⟩]
      [⟨some "A", some "c1", none, none, none, none, none⟩]).2.2.2.2.2.1
      "A" _ (by decide) (by decide),
   ((claim_C6_converter [⟨some "B", some "d", some "Y", some "N", some "Y", none, none⟩]
      [⟨some "A", some "c1", none, none, none, none, none⟩]).2.2.2.2.2.2
      "B" _ _ (by decide) (by decide)).2.1⟩

end CDW
